import Mathlib

/-!
# Beer tap dispenser: verification of the lifecycle manager

Shallow embedding of `src/managers/dispenserManager.js` and
`src/utils/utils.js` of the `beer_tap_dispenser` repository.

Modelling conventions:
* JS `Date` values are integers (milliseconds since the epoch); user-supplied
  timestamps arrive already parsed, so the `isNaN(Date.parse(updatedAt))`
  guard always passes in the model.
* JS `null` stored in `closed_at` / `total_spent` is `Option.none`.
  `new Date(null)` coerces `null` to the epoch, which `jsDateOfOpt` models.
* JS floating-point numbers are idealised as rationals; `toFixed(2)` becomes
  `round2` (round half towards positive infinity at two decimal places,
  matching the ECMAScript `toFixed` tie-break of picking the larger digit
  string).
* `uuidv4()` is modelled by a fresh-id counter `nextId`; the JS `Map`s become
  association lists with first-key-wins lookup.
* `PRICE_PER_LITRE` is imported by the sources from `constants/constants.js`,
  a file that is not part of the sources. Modelled from the spec: "Price per
  unit: fixed monetary cost per unit volume, a system-wide constant" — it is
  kept as an explicit parameter `price` threaded through every operation, and
  every theorem quantifies over it.
* A thrown JS `Error` becomes `Except.error`; because a throw does not undo
  earlier field assignments, every operation returns the (possibly mutated)
  manager state *together with* the `Except` result.
-/

namespace BeerTap

/-- The two dispenser states, stored as the JS strings used by the source
(`DispenserState.OPEN = 'open'`, `DispenserState.CLOSE = 'close'`). -/
def DispenserState.OPEN : String := "open"

def DispenserState.CLOSE : String := "close"

/-- A JS value passed as `flow_volume`: either a number or something whose
`typeof` is not `'number'`. -/
inductive FlowArg where
  | num (q : ℚ)
  | nonNum
deriving DecidableEq, Repr

/-- The error messages of `constants/messages.js` that the manager throws,
plus the JS `TypeError` raised when a property of `undefined` is read. -/
inductive Err where
  | invalidFlow
  | dispenserNotFound
  | invalidDispenserStatus
  | invalidDateFormat
  | invalidDateOrder
  | typeError
deriving DecidableEq, Repr

instance {e a : Type} [DecidableEq e] [DecidableEq a] : DecidableEq (Except e a) :=
  fun x y =>
  match x, y with
  | .error u, .error v =>
    if h : u = v then .isTrue (h ▸ rfl) else .isFalse fun hc => h (Except.error.inj hc)
  | .ok u, .ok v =>
    if h : u = v then .isTrue (h ▸ rfl) else .isFalse fun hc => h (Except.ok.inj hc)
  | .error _, .ok _ => .isFalse fun hc => Except.noConfusion hc
  | .ok _, .error _ => .isFalse fun hc => Except.noConfusion hc

/-- A dispenser record as built by `createDispenser`. -/
structure Dispenser where
  id : Nat
  flow_volume : ℚ
  state : String
  updated_at : ℤ
deriving DecidableEq, Repr

/-- A usage period (`statusChange` object) of the ledger. -/
structure StatusChange where
  opened_at : ℤ
  closed_at : Option ℤ
  flow_volume : ℚ
  total_spent : Option ℚ
deriving DecidableEq, Repr

/-- The three containers of the `DispenserManager` class constructor, plus the
fresh-id counter standing in for `uuidv4()`. -/
structure DispenserManager where
  nextId : Nat
  dispensers : List Dispenser
  statusChanges : List (Nat × List StatusChange)
  totalSpentPerDispenser : List (Nat × ℚ)
deriving DecidableEq, Repr

/-- `Map.get`: first binding of the key, if any. -/
def mapGet? {α : Type} (m : List (Nat × α)) (k : Nat) : Option α :=
  (m.find? (fun p => p.1 == k)).map Prod.snd

/-- `Map.set`: overwrite the binding when the key is present (keeping its
position), append otherwise. -/
def mapSet {α : Type} : List (Nat × α) → Nat → α → List (Nat × α)
  | [], k, v => [(k, v)]
  | p :: m, k, v => if p.1 == k then (k, v) :: m else p :: mapSet m k v

/-- `new Date(x)` for a value that may be `null`: `null` coerces to the
epoch (0 milliseconds). -/
def jsDateOfOpt : Option ℤ → ℤ
  | none => 0
  | some t => t

/-- Round to two decimal places; models `Number(x.toFixed(2))`. -/
def round2 (x : ℚ) : ℚ := ((round (x * 100) : ℤ) : ℚ) / 100

/-- `calculateTotalSpent` of `src/utils/utils.js`:
seconds open × flow volume × price per litre, rounded to 2 decimals. -/
def calculateTotalSpent (price : ℚ) (openedAt closedAt : ℤ) (flowVolume : ℚ) : ℚ :=
  let secondsOpen : ℚ := ((closedAt : ℚ) - (openedAt : ℚ)) / 1000
  round2 (secondsOpen * flowVolume * price)

/-- The empty manager produced by the class constructor. -/
def initState : DispenserManager :=
  { nextId := 0, dispensers := [], statusChanges := [], totalSpentPerDispenser := [] }

/-- `createDispenser(flow_volume)`: reject non-positive or non-numeric flow,
otherwise append a fresh dispenser in state `close` with `updated_at` the
creation time. -/
def createDispenser (s : DispenserManager) (flow_volume : FlowArg) (now : ℤ) :
    DispenserManager × Except Err Dispenser :=
  match flow_volume with
  | .nonNum => (s, .error .invalidFlow)
  | .num q =>
    if q ≤ 0 then (s, .error .invalidFlow)
    else
      let d : Dispenser :=
        { id := s.nextId, flow_volume := q, state := DispenserState.CLOSE, updated_at := now }
      ({ s with nextId := s.nextId + 1, dispensers := s.dispensers ++ [d] }, .ok d)

/-- Result of `changeDispenserStatus`: either the `{success:false, message}`
object for a dispenser already in the requested state, or the
`{success:true, dispenser}` object. -/
inductive ChangeResult where
  | alreadyInState
  | changed (d : Dispenser)
deriving DecidableEq, Repr

/-- In-place mutation of the dispenser found by `Array.prototype.find`:
update `state` and `updated_at` of the first record with the given id. -/
def setStateFirst : List Dispenser → Nat → String → ℤ → List Dispenser
  | [], _, _, _ => []
  | d :: ds, id, st, t =>
    if d.id == id then { d with state := st, updated_at := t } :: ds
    else d :: setStateFirst ds id st t

/-- `changeDispenserStatus(id, state, updatedAt)` of
`src/managers/dispenserManager.js`, including its mutate-then-validate order:
the dispenser's `state`/`updated_at` are assigned *before* the ledger date
checks, so an `InvalidDateOrder` throw leaves them mutated. -/
def changeDispenserStatus (price : ℚ) (s : DispenserManager)
    (id : Nat) (state : String) (updatedAt : ℤ) :
    DispenserManager × Except Err ChangeResult :=
  match s.dispensers.find? (fun d => d.id == id) with
  | none => (s, .error .dispenserNotFound)
  | some dispenser =>
    if state ≠ DispenserState.OPEN ∧ state ≠ DispenserState.CLOSE then
      (s, .error .invalidDispenserStatus)
    else if dispenser.state == state then
      (s, .ok .alreadyInState)
    else
      let dispenser1 : Dispenser := { dispenser with state := state, updated_at := updatedAt }
      let s1 : DispenserManager :=
        { s with dispensers := setStateFirst s.dispensers id state updatedAt }
      if state == DispenserState.OPEN then
        let sc : StatusChange :=
          { opened_at := updatedAt, closed_at := none,
            flow_volume := dispenser.flow_volume, total_spent := none }
        match mapGet? s1.statusChanges id with
        | some l =>
          match l.getLast? with
          | some last =>
            if updatedAt ≤ jsDateOfOpt last.closed_at then
              (s1, .error .invalidDateOrder)
            else
              ({ s1 with statusChanges := mapSet s1.statusChanges id (l ++ [sc]) },
               .ok (.changed dispenser1))
          | none =>
            ({ s1 with statusChanges := mapSet s1.statusChanges id (l ++ [sc]) },
             .ok (.changed dispenser1))
        | none =>
          ({ s1 with statusChanges := mapSet s1.statusChanges id [sc] },
           .ok (.changed dispenser1))
      else
        match mapGet? s1.statusChanges id with
        | some l =>
          match l.getLast? with
          | some last =>
            if updatedAt ≤ last.opened_at then
              (s1, .error .invalidDateOrder)
            else
              let spent := calculateTotalSpent price last.opened_at updatedAt last.flow_volume
              let last' : StatusChange :=
                { last with closed_at := some updatedAt, total_spent := some spent }
              ({ s1 with
                  statusChanges := mapSet s1.statusChanges id (l.dropLast ++ [last']),
                  totalSpentPerDispenser :=
                    (mapSet s1.totalSpentPerDispenser id
                      ((mapGet? s1.totalSpentPerDispenser id).getD 0 + spent)) },
               .ok (.changed dispenser1))
          | none =>
            -- `statusChanges[statusChanges.length - 1]` is `undefined` for an
            -- empty array, and the unconditional `lastStatusChange.closed_at =
            -- updatedAt` assignment then raises a TypeError.
            (s1, .error .typeError)
        | none => (s1, .ok (.changed dispenser1))

/-- The `{amount, usages}` object returned by `getSpending`. -/
structure Spending where
  amount : ℚ
  usages : List StatusChange
deriving DecidableEq, Repr

/-- `updateTotalSpentPerDispenser(id, spentAmount)`: add to the stored
running total (missing entry counts as 0). -/
def updateTotalSpentPerDispenser (s : DispenserManager) (id : Nat) (spentAmount : ℚ) :
    DispenserManager :=
  { s with totalSpentPerDispenser :=
      (mapSet s.totalSpentPerDispenser id
        ((mapGet? s.totalSpentPerDispenser id).getD 0 + spentAmount)) }

/-- `getSpending(id)` of `src/managers/dispenserManager.js`. When the last
period is still open it computes its spend as of `now`, stores it in the
period's `total_spent`, and adds it to the persisted running total via
`updateTotalSpentPerDispenser` before returning. -/
def getSpending (price : ℚ) (s : DispenserManager) (id : Nat) (now : ℤ) :
    DispenserManager × Except Err Spending :=
  match s.dispensers.find? (fun d => d.id == id) with
  | none => (s, .error .dispenserNotFound)
  | some _ =>
    match mapGet? s.statusChanges id with
    | none => (s, .ok { amount := 0, usages := [] })
    | some spending =>
      match spending.getLast? with
      | none =>
        -- `spending[spending.length - 1]` is `undefined`, so reading
        -- `.closed_at` raises a TypeError.
        (s, .error .typeError)
      | some last =>
        if last.closed_at = none then
          let est := calculateTotalSpent price last.opened_at now last.flow_volume
          let last' : StatusChange := { last with total_spent := some est }
          let spending' := spending.dropLast ++ [last']
          let s1 : DispenserManager :=
            { s with statusChanges := mapSet s.statusChanges id spending' }
          let s2 := updateTotalSpentPerDispenser s1 id est
          (s2, .ok { amount := (mapGet? s2.totalSpentPerDispenser id).getD 0,
                     usages := spending' })
        else
          (s, .ok { amount := (mapGet? s.totalSpentPerDispenser id).getD 0,
                    usages := spending })

/-- One external call to the manager, with the wall-clock input it consumes. -/
inductive Op where
  | create (flow : FlowArg) (now : ℤ)
  | change (id : Nat) (state : String) (t : ℤ)
  | spend (id : Nat) (now : ℤ)
deriving DecidableEq, Repr

/-- Run one call for its state effect (JS callers keep the shared manager
whether the call returns or throws). -/
def runOp (price : ℚ) (s : DispenserManager) : Op → DispenserManager
  | .create fv now => (createDispenser s fv now).1
  | .change id st t => (changeDispenserStatus price s id st t).1
  | .spend id now => (getSpending price s id now).1

/-- Run a sequence of calls from a given state. -/
def runTrace (price : ℚ) (s : DispenserManager) (ops : List Op) : DispenserManager :=
  ops.foldl (runOp price) s

/-- States reachable from the initial empty store by some call sequence. -/
def Reachable (price : ℚ) (s : DispenserManager) : Prop :=
  ∃ ops, runTrace price initState ops = s

/-- Every closed period stores exactly the Spend Calculator's value for its
boundaries and flow snapshot. -/
def ClosedSpentOK (price : ℚ) (s : DispenserManager) : Prop :=
  ∀ e ∈ s.statusChanges, ∀ p ∈ e.2, ∀ c, p.closed_at = some c →
    p.total_spent = some (calculateTotalSpent price p.opened_at c p.flow_volume)

/-- All stored dispenser ids are below the fresh-id counter. -/
def IdsLt (s : DispenserManager) : Prop :=
  ∀ d ∈ s.dispensers, d.id < s.nextId

/-- `new` extends `old` without removing, reordering or editing interior
periods: `new` is at least as long, agrees with `old` on every index except
possibly the last index of `old`, and even there keeps `opened_at` and
`flow_volume` unchanged. -/
def LedgerExtends (old new : List StatusChange) : Prop :=
  old.length ≤ new.length ∧
  (∀ i, i + 1 < old.length → new[i]? = old[i]?) ∧
  (∀ (i : Nat) (p q : StatusChange), old[i]? = some p → new[i]? = some q →
    q.opened_at = p.opened_at ∧ q.flow_volume = p.flow_volume)

/-- Concrete sample: one closed dispenser, never opened. -/
def egFresh : DispenserManager :=
  { nextId := 1, dispensers := [⟨0, 2, "close", 0⟩],
    statusChanges := [], totalSpentPerDispenser := [] }

/-- Concrete sample: one dispenser open since time 1000. -/
def egOpen : DispenserManager :=
  { nextId := 1, dispensers := [⟨0, 2, "open", 1000⟩],
    statusChanges := [(0, [⟨1000, none, 2, none⟩])], totalSpentPerDispenser := [] }

/-- Concrete sample: one dispenser with a completed usage period
(opened 1000, closed 3000, flow 2, price 1, spend 4). -/
def egClosed : DispenserManager :=
  { nextId := 1, dispensers := [⟨0, 2, "close", 3000⟩],
    statusChanges := [(0, [⟨1000, some 3000, 2, some 4⟩])],
    totalSpentPerDispenser := [(0, 4)] }

/-! ## Association-list and list helper lemmas -/

theorem mapGet?_cons {α : Type} (p : Nat × α) (m : List (Nat × α)) (k : Nat) :
    mapGet? (p :: m) k = if p.1 == k then some p.2 else mapGet? m k := by
  cases hb : p.1 == k <;> simp [mapGet?, List.find?_cons, hb]

theorem mapGet?_mapSet_self {α : Type} (m : List (Nat × α)) (k : Nat) (v : α) :
    mapGet? (mapSet m k v) k = some v := by
  induction m with
  | nil => simp [mapGet?, mapSet, List.find?_cons]
  | cons p m ih =>
    cases hb : p.1 == k with
    | true => simp [mapSet, hb, mapGet?_cons]
    | false =>
      simp only [mapSet, hb, Bool.false_eq_true, if_false]
      rw [mapGet?_cons, if_neg (by simp [hb])]
      exact ih

theorem mapGet?_mapSet_ne {α : Type} (m : List (Nat × α)) (k k' : Nat) (v : α)
    (h : k' ≠ k) : mapGet? (mapSet m k v) k' = mapGet? m k' := by
  have hkk : (k == k') = false := by simpa using (Ne.symm h)
  induction m with
  | nil => simp [mapGet?, mapSet, List.find?_cons, hkk]
  | cons p m ih =>
    cases hb : p.1 == k with
    | true =>
      have hp1 : p.1 = k := by simpa using hb
      simp only [mapSet, hb, if_true]
      rw [mapGet?_cons, mapGet?_cons, if_neg (by simp [hkk]), if_neg (by simp [hp1, hkk])]
    | false =>
      simp only [mapSet, hb, Bool.false_eq_true, if_false]
      rw [mapGet?_cons, mapGet?_cons]
      cases hk' : p.1 == k' with
      | true => simp
      | false => simp only [Bool.false_eq_true, if_false]; exact ih

theorem mem_mapSet {α : Type} {m : List (Nat × α)} {k : Nat} {v : α} {p : Nat × α}
    (h : p ∈ mapSet m k v) : p ∈ m ∨ p = (k, v) := by
  induction m with
  | nil =>
    simp only [mapSet, List.mem_singleton] at h
    exact Or.inr h
  | cons q m ih =>
    cases hb : q.1 == k with
    | true =>
      rw [mapSet, if_pos (by simp [hb])] at h
      rcases List.mem_cons.mp h with h' | h'
      · exact Or.inr h'
      · exact Or.inl (List.mem_cons_of_mem _ h')
    | false =>
      rw [mapSet, if_neg (by simp [hb])] at h
      rcases List.mem_cons.mp h with h' | h'
      · exact Or.inl (h' ▸ List.mem_cons_self _ _)
      · rcases ih h' with h'' | h''
        · exact Or.inl (List.mem_cons_of_mem _ h'')
        · exact Or.inr h''

theorem mapGet?_mem {α : Type} {m : List (Nat × α)} {k : Nat} {l : α}
    (h : mapGet? m k = some l) : (k, l) ∈ m := by
  unfold mapGet? at h
  cases hf : m.find? (fun p => p.1 == k) with
  | none => rw [hf] at h; simp at h
  | some q =>
    rw [hf] at h
    have hq1 : q.1 = k := by simpa using List.find?_some hf
    have hq2 : q.2 = l := by simpa using h
    have : q = (k, l) := by
      cases q; simp_all
    exact this ▸ List.mem_of_find?_eq_some hf

theorem mem_of_mem_dropLast {α : Type} {l : List α} {x : α} (h : x ∈ l.dropLast) :
    x ∈ l := by
  rw [List.dropLast_eq_take] at h
  exact List.take_subset _ _ h

theorem find?_append_of_none {α : Type} {p : α → Bool} {l₁ l₂ : List α}
    (h : l₁.find? p = none) : (l₁ ++ l₂).find? p = l₂.find? p := by
  induction l₁ with
  | nil => rfl
  | cons a l ih =>
    cases ha : p a with
    | true => rw [List.find?_cons_of_pos _ ha] at h; exact absurd h (by simp)
    | false =>
      rw [List.find?_cons_of_neg _ (by simp [ha])] at h
      rw [List.cons_append, List.find?_cons_of_neg _ (by simp [ha])]
      exact ih h

theorem find?_id_cons (a : Dispenser) (l : List Dispenser) (id : Nat) :
    (a :: l).find? (fun d' => d'.id == id) =
      if a.id == id then some a else l.find? (fun d' => d'.id == id) := by
  cases hb : a.id == id <;> simp [List.find?_cons, hb]

theorem find?_setStateFirst {l : List Dispenser} {id : Nat} {d : Dispenser}
    (st : String) (t : ℤ)
    (h : l.find? (fun d' => d'.id == id) = some d) :
    (setStateFirst l id st t).find? (fun d' => d'.id == id) =
      some { d with state := st, updated_at := t } := by
  induction l with
  | nil => exact absurd h (by simp)
  | cons a l ih =>
    cases ha : a.id == id with
    | true =>
      rw [find?_id_cons, if_pos (by simp [ha])] at h
      have had : a = d := by simpa using h
      rw [← had]
      rw [show setStateFirst (a :: l) id st t =
            { a with state := st, updated_at := t } :: l from by
          simp [setStateFirst, ha]]
      rw [find?_id_cons]
      exact if_pos (by simp [ha])
    | false =>
      rw [find?_id_cons, if_neg (by simp [ha])] at h
      rw [show setStateFirst (a :: l) id st t = a :: setStateFirst l id st t from by
          simp [setStateFirst, ha]]
      rw [find?_id_cons, if_neg (by simp [ha])]
      exact ih h

theorem setStateFirst_append_of_none {l l' : List Dispenser} {id : Nat}
    (st : String) (t : ℤ)
    (h : l.find? (fun d' => d'.id == id) = none) :
    setStateFirst (l ++ l') id st t = l ++ setStateFirst l' id st t := by
  induction l with
  | nil => rfl
  | cons a l ih =>
    cases ha : a.id == id with
    | true =>
      rw [find?_id_cons, if_pos (by simp [ha])] at h
      exact absurd h (by simp)
    | false =>
      rw [find?_id_cons, if_neg (by simp [ha])] at h
      rw [List.cons_append,
        show setStateFirst (a :: (l ++ l')) id st t =
            a :: setStateFirst (l ++ l') id st t from by
          simp [setStateFirst, ha]]
      rw [ih h, List.cons_append]

theorem map_id_setStateFirst (l : List Dispenser) (id : Nat) (st : String) (t : ℤ) :
    (setStateFirst l id st t).map Dispenser.id = l.map Dispenser.id := by
  induction l with
  | nil => rfl
  | cons a l ih =>
    cases ha : a.id == id with
    | true => simp [setStateFirst, ha]
    | false => simp [setStateFirst, ha, ih]

/-! ## Invariants preserved by every call -/

theorem closedSpentOK_congr {price : ℚ} {s s' : DispenserManager}
    (h : ClosedSpentOK price s) (he : s'.statusChanges = s.statusChanges) :
    ClosedSpentOK price s' := by
  intro e hmem
  rw [he] at hmem
  exact h e hmem

theorem closedSpentOK_mapSet {price : ℚ} {s s' : DispenserManager} {k : Nat}
    {l' : List StatusChange}
    (h : ClosedSpentOK price s)
    (hn : ∀ p ∈ l', ∀ c, p.closed_at = some c →
      p.total_spent = some (calculateTotalSpent price p.opened_at c p.flow_volume))
    (he : s'.statusChanges = mapSet s.statusChanges k l') :
    ClosedSpentOK price s' := by
  intro e hmem p hp c hc
  rw [he] at hmem
  rcases mem_mapSet hmem with hm | hm
  · exact h e hm p hp c hc
  · subst hm
    exact hn p hp c hc

theorem createDispenser_proj (s : DispenserManager) (fv : FlowArg) (now : ℤ) :
    (createDispenser s fv now).1.statusChanges = s.statusChanges ∧
    (createDispenser s fv now).1.totalSpentPerDispenser = s.totalSpentPerDispenser := by
  cases fv with
  | nonNum => exact ⟨rfl, rfl⟩
  | num q =>
    simp only [createDispenser]
    by_cases hq : q ≤ 0
    · rw [if_pos hq]; exact ⟨rfl, rfl⟩
    · rw [if_neg hq]; exact ⟨rfl, rfl⟩

theorem closedSpentOK_runOp (price : ℚ) (s : DispenserManager) (op : Op)
    (h : ClosedSpentOK price s) : ClosedSpentOK price (runOp price s op) := by
  cases op with
  | create fv now =>
    exact closedSpentOK_congr h (createDispenser_proj s fv now).1
  | change id st t =>
    show ClosedSpentOK price (changeDispenserStatus price s id st t).1
    unfold changeDispenserStatus
    split
    · exact h
    next dispenser hfind =>
      split
      · exact h
      split
      · exact h
      dsimp only
      split
      · -- open branch
        split
        next l hl =>
          split
          next last hlast =>
            split
            · exact closedSpentOK_congr h rfl
            · refine closedSpentOK_mapSet h ?_ rfl
              intro p hp c hc
              rcases List.mem_append.mp hp with hp' | hp'
              · exact h _ (mapGet?_mem hl) p hp' c hc
              · rw [List.mem_singleton.mp hp'] at hc
                simp at hc
          next hlast =>
            refine closedSpentOK_mapSet h ?_ rfl
            intro p hp c hc
            rcases List.mem_append.mp hp with hp' | hp'
            · exact h _ (mapGet?_mem ‹mapGet? _ _ = some _›) p hp' c hc
            · rw [List.mem_singleton.mp hp'] at hc
              simp at hc
        next hl =>
          refine closedSpentOK_mapSet h ?_ rfl
          intro p hp c hc
          rw [List.mem_singleton.mp hp] at hc
          simp at hc
      · -- close branch
        split
        next l hl =>
          split
          next last hlast =>
            split
            · exact closedSpentOK_congr h rfl
            · refine closedSpentOK_mapSet h ?_ rfl
              intro p hp c hc
              rcases List.mem_append.mp hp with hp' | hp'
              · exact h _ (mapGet?_mem hl) p (mem_of_mem_dropLast hp') c hc
              · rw [List.mem_singleton.mp hp']
                rw [List.mem_singleton.mp hp'] at hc
                simp only at hc ⊢
                cases hc
                rfl
          next hlast =>
            exact closedSpentOK_congr h rfl
        next hl =>
          exact closedSpentOK_congr h rfl
  | spend id now =>
    show ClosedSpentOK price (getSpending price s id now).1
    unfold getSpending
    split
    · exact h
    split
    · exact h
    next spending hl =>
      split
      · exact h
      next last hlast =>
        split
        next hopen =>
          refine closedSpentOK_mapSet h ?_ rfl
          intro p hp c hc
          rcases List.mem_append.mp hp with hp' | hp'
          · exact h _ (mapGet?_mem hl) p (mem_of_mem_dropLast hp') c hc
          · rw [List.mem_singleton.mp hp'] at hc
            simp only at hc
            rw [hopen] at hc
            cases hc
        · exact h

theorem idsLt_setStateFirst {s s' : DispenserManager} {id : Nat} {st : String} {t : ℤ}
    (h : IdsLt s) (he : s'.dispensers = setStateFirst s.dispensers id st t)
    (hn : s'.nextId = s.nextId) : IdsLt s' := by
  intro d hd
  have hmap : d.id ∈ s'.dispensers.map Dispenser.id := List.mem_map_of_mem _ hd
  rw [he, map_id_setStateFirst] at hmap
  rcases List.mem_map.mp hmap with ⟨d₀, hd₀, hid⟩
  rw [hn, ← hid]
  exact h d₀ hd₀

theorem idsLt_runOp (price : ℚ) (s : DispenserManager) (op : Op)
    (h : IdsLt s) : IdsLt (runOp price s op) := by
  cases op with
  | create fv now =>
    show IdsLt (createDispenser s fv now).1
    cases fv with
    | nonNum => exact h
    | num q =>
      simp only [createDispenser]
      by_cases hq : q ≤ 0
      · rw [if_pos hq]; exact h
      · rw [if_neg hq]
        intro d hd
        rcases List.mem_append.mp hd with hd' | hd'
        · exact Nat.lt_succ_of_lt (h d hd')
        · rw [List.mem_singleton.mp hd']
          exact Nat.lt_succ_self _
  | change id st t =>
    show IdsLt (changeDispenserStatus price s id st t).1
    unfold changeDispenserStatus
    split
    · exact h
    split
    · exact h
    split
    · exact h
    dsimp only
    split
    · split
      · split
        · split
          · exact idsLt_setStateFirst h rfl rfl
          · exact idsLt_setStateFirst h rfl rfl
        · exact idsLt_setStateFirst h rfl rfl
      · exact idsLt_setStateFirst h rfl rfl
    · split
      · split
        · split
          · exact idsLt_setStateFirst h rfl rfl
          · exact idsLt_setStateFirst h rfl rfl
        · exact idsLt_setStateFirst h rfl rfl
      · exact idsLt_setStateFirst h rfl rfl
  | spend id now =>
    show IdsLt (getSpending price s id now).1
    unfold getSpending
    split
    · exact h
    split
    · exact h
    split
    · exact h
    split
    · intro d hd
      exact h d hd
    · exact h

theorem closedSpentOK_runTrace (price : ℚ) (s : DispenserManager) (ops : List Op)
    (h : ClosedSpentOK price s) : ClosedSpentOK price (runTrace price s ops) := by
  induction ops generalizing s with
  | nil => exact h
  | cons op ops ih => exact ih _ (closedSpentOK_runOp price s op h)

theorem idsLt_runTrace (price : ℚ) (s : DispenserManager) (ops : List Op)
    (h : IdsLt s) : IdsLt (runTrace price s ops) := by
  induction ops generalizing s with
  | nil => exact h
  | cons op ops ih => exact ih _ (idsLt_runOp price s op h)

theorem closedSpentOK_reachable {price : ℚ} {s : DispenserManager}
    (h : Reachable price s) : ClosedSpentOK price s := by
  rcases h with ⟨ops, rfl⟩
  exact closedSpentOK_runTrace price initState ops (by intro e he; simp [initState] at he)

theorem idsLt_reachable {price : ℚ} {s : DispenserManager}
    (h : Reachable price s) : IdsLt s := by
  rcases h with ⟨ops, rfl⟩
  exact idsLt_runTrace price initState ops (by intro d hd; simp [initState] at hd)

/-! ## Claim theorems -/

/-- C2: for an existing dispenser, a valid requested state in {OPEN, CLOSE}
and a (parseable, here integral) timestamp, when the dispenser is already in
the requested state `changeDispenserStatus` returns the non-error
`{success:false, reason: AlreadyInState}` result and leaves the whole manager
unchanged — the dispenser's state and `updated_at`, the usage-period
sequences, and the running totals are exactly as before the call. -/
theorem changeStatus_already_in_state_frame (price : ℚ) (s : DispenserManager)
    (id : Nat) (st : String) (t : ℤ) (d : Dispenser)
    (hfind : s.dispensers.find? (fun d' => d'.id == id) = some d)
    (hvalid : st = DispenserState.OPEN ∨ st = DispenserState.CLOSE)
    (hsame : d.state = st) :
    changeDispenserStatus price s id st t = (s, .ok .alreadyInState) := by
  unfold changeDispenserStatus
  rw [hfind]
  dsimp only
  rw [if_neg (by rcases hvalid with h | h <;> simp [h]), if_pos (by simp [hsame])]

/-- Witness for C2 at a concrete state: asking a closed dispenser to close. -/
theorem changeStatus_already_in_state_frame_witness :
    changeDispenserStatus 1 egFresh 0 DispenserState.CLOSE 5 =
      (egFresh, .ok .alreadyInState) :=
  changeStatus_already_in_state_frame 1 egFresh 0 DispenserState.CLOSE 5
    ⟨0, 2, "close", 0⟩ (by decide) (Or.inr rfl) rfl

/-- C8: `getSpending` fails with DispenserNotFound exactly when no stored
dispenser has the requested id, and for an existing dispenser with no ledger
entries it returns amount 0 and an empty usage list, unchanged state. -/
theorem getSpending_not_found_iff (price : ℚ) (s : DispenserManager)
    (id : Nat) (now : ℤ) :
    ((getSpending price s id now).2 = .error .dispenserNotFound ↔
      ∀ d ∈ s.dispensers, d.id ≠ id) ∧
    (∀ d, s.dispensers.find? (fun d' => d'.id == id) = some d →
      mapGet? s.statusChanges id = none →
      getSpending price s id now = (s, .ok { amount := 0, usages := [] })) := by
  constructor
  · unfold getSpending
    split
    next hf =>
      refine iff_of_true rfl ?_
      intro d hd hid
      have := List.find?_eq_none.mp hf d hd
      simp [hid] at this
    next d hf =>
      have hmem := List.mem_of_find?_eq_some hf
      have hid : d.id = id := by simpa using List.find?_some hf
      have hrhs : ¬ ∀ d' ∈ s.dispensers, d'.id ≠ id := fun hall => hall d hmem hid
      split
      · exact iff_of_false (by simp) hrhs
      split
      · exact iff_of_false (by simp) hrhs
      split
      · exact iff_of_false (by simp) hrhs
      · exact iff_of_false (by simp) hrhs
  · intro d hf hsc
    unfold getSpending
    rw [hf]
    dsimp only
    rw [hsc]

/-- Witness for C8: unknown id 7 fails; the never-opened dispenser 0 yields
amount 0 with no usages. -/
theorem getSpending_not_found_iff_witness :
    (getSpending 1 egFresh 7 0).2 = .error .dispenserNotFound ∧
    getSpending 1 egFresh 0 0 = (egFresh, .ok { amount := 0, usages := [] }) :=
  ⟨(getSpending_not_found_iff 1 egFresh 7 0).1.mpr (by decide),
   (getSpending_not_found_iff 1 egFresh 0 0).2 ⟨0, 2, "close", 0⟩ (by decide) (by decide)⟩

/-- C5 counterexample: on a dispenser open since 1000 with stored running
total absent (0), `getSpending` at time 2000 sets the persisted running total
to 2 — the stored total after the call differs from the stored total before,
contradicting the claim that it is unchanged. -/
theorem getSpending_mutates_running_total :
    mapGet? egOpen.totalSpentPerDispenser 0 = none ∧
    mapGet? (getSpending 1 egOpen 0 2000).1.totalSpentPerDispenser 0 = some 2 := by
  refine ⟨by decide, ?_⟩
  unfold getSpending
  rw [show egOpen.dispensers.find? (fun d' => d'.id == 0) = some ⟨0, 2, "open", 1000⟩
    by decide]
  dsimp only
  rw [show mapGet? egOpen.statusChanges 0 = some [⟨1000, none, 2, none⟩] by decide]
  dsimp only
  rw [show ([⟨1000, none, 2, none⟩] : List StatusChange).getLast? =
    some ⟨1000, none, 2, none⟩ from rfl]
  dsimp only
  rw [if_pos rfl]
  dsimp only [updateTotalSpentPerDispenser]
  rw [mapGet?_mapSet_self]
  rw [show mapGet? egOpen.totalSpentPerDispenser 0 = none by decide]
  norm_num [calculateTotalSpent, round2, round_eq]

/-- C5 (amended): for a dispenser whose last usage period is open,
`getSpending` computes the period's spend as of `now`, includes it in the
returned amount, and leaves `closed_at` unset — but it persists the estimate:
it is written into the period's `total_spent` and added to the stored running
total, so the stored running total after the call equals the stored total
before it plus the estimate. -/
theorem getSpending_open_period_effects (price : ℚ) (s : DispenserManager)
    (id : Nat) (now : ℤ) (d : Dispenser) (l : List StatusChange) (last : StatusChange)
    (hfind : s.dispensers.find? (fun d' => d'.id == id) = some d)
    (hl : mapGet? s.statusChanges id = some l)
    (hlast : l.getLast? = some last)
    (hopen : last.closed_at = none) :
    (getSpending price s id now).2 =
      .ok { amount := ((mapGet? s.totalSpentPerDispenser id).getD 0 +
              calculateTotalSpent price last.opened_at now last.flow_volume),
            usages := (l.dropLast ++
              [{ last with total_spent :=
                  (some (calculateTotalSpent price last.opened_at now last.flow_volume)) }]) } ∧
    mapGet? (getSpending price s id now).1.statusChanges id =
      some (l.dropLast ++
        [{ last with total_spent :=
            (some (calculateTotalSpent price last.opened_at now last.flow_volume)) }]) ∧
    ({ last with total_spent :=
        (some (calculateTotalSpent price last.opened_at now last.flow_volume)) }).closed_at
      = none ∧
    mapGet? (getSpending price s id now).1.totalSpentPerDispenser id =
      some ((mapGet? s.totalSpentPerDispenser id).getD 0 +
        calculateTotalSpent price last.opened_at now last.flow_volume) := by
  unfold getSpending
  rw [hfind]
  dsimp only
  rw [hl]
  dsimp only
  rw [hlast]
  dsimp only
  rw [if_pos hopen]
  dsimp only [updateTotalSpentPerDispenser]
  refine ⟨?_, ?_, hopen, ?_⟩
  · rw [mapGet?_mapSet_self]
    rfl
  · rw [mapGet?_mapSet_self]
  · rw [mapGet?_mapSet_self]

/-- Witness for C5's amended theorem on the concrete open dispenser. -/
theorem getSpending_open_period_effects_witness :
    (getSpending 1 egOpen 0 2000).2 = .ok ⟨2, [⟨1000, none, 2, some 2⟩]⟩ ∧
    mapGet? (getSpending 1 egOpen 0 2000).1.statusChanges 0 =
      some [⟨1000, none, 2, some 2⟩] ∧
    mapGet? (getSpending 1 egOpen 0 2000).1.totalSpentPerDispenser 0 = some 2 := by
  have h := getSpending_open_period_effects 1 egOpen 0 2000 ⟨0, 2, "open", 1000⟩
    [⟨1000, none, 2, none⟩] ⟨1000, none, 2, none⟩ (by decide) (by decide) (by decide) rfl
  refine ⟨?_, ?_, ?_⟩
  · rw [h.1]
    norm_num [calculateTotalSpent, round2, round_eq, egOpen, mapGet?, List.find?]
  · rw [h.2.1]
    norm_num [calculateTotalSpent, round2, round_eq]
  · rw [h.2.2.2]
    norm_num [calculateTotalSpent, round2, round_eq, egOpen, mapGet?, List.find?]

/-- C6 fails on the code: create a dispenser, open it at 1000, attempt a close
at 500 (which throws InvalidDateOrder but leaves the dispenser flipped to
`close`), then open again at 2000. The open-time guard compares against
`new Date(null)` (the epoch) for the still-open last period, so a second open
period is appended: the usage sequence then holds two periods lacking
`closed_at`, and the period without `closed_at` is not the last one —
violating the claimed invariant on a reachable state. -/
theorem broken_trace_two_open_periods :
    (changeDispenserStatus 1
        (runTrace 1 initState
          [.create (.num 10) 0, .change 0 DispenserState.OPEN 1000])
        0 DispenserState.CLOSE 500).2 = .error .invalidDateOrder ∧
    mapGet? (runTrace 1 initState
        [.create (.num 10) 0, .change 0 DispenserState.OPEN 1000,
         .change 0 DispenserState.CLOSE 500,
         .change 0 DispenserState.OPEN 2000]).statusChanges 0 =
      some [⟨1000, none, 10, none⟩, ⟨2000, none, 10, none⟩] := by
  decide

/-- C1: with the dispenser open and its last usage period open, closing fails
with InvalidDateOrder exactly when the timestamp is ≤ that period's
opened_at; with the dispenser closed after a completed period, reopening
fails with InvalidDateOrder exactly when the timestamp is ≤ the last
period's closed_at; both succeed for strictly greater timestamps. -/
theorem changeStatus_invalid_date_order_iff (price : ℚ) (s : DispenserManager)
    (id : Nat) (t : ℤ) :
    (∀ d l last, s.dispensers.find? (fun d' => d'.id == id) = some d →
      d.state = DispenserState.OPEN →
      mapGet? s.statusChanges id = some l → l.getLast? = some last →
      last.closed_at = none →
      (((changeDispenserStatus price s id DispenserState.CLOSE t).2 =
          .error .invalidDateOrder) ↔ t ≤ last.opened_at) ∧
      (last.opened_at < t → ∃ d',
        (changeDispenserStatus price s id DispenserState.CLOSE t).2 =
          .ok (.changed d'))) ∧
    (∀ d l last c, s.dispensers.find? (fun d' => d'.id == id) = some d →
      d.state = DispenserState.CLOSE →
      mapGet? s.statusChanges id = some l → l.getLast? = some last →
      last.closed_at = some c →
      (((changeDispenserStatus price s id DispenserState.OPEN t).2 =
          .error .invalidDateOrder) ↔ t ≤ c) ∧
      (c < t → ∃ d',
        (changeDispenserStatus price s id DispenserState.OPEN t).2 =
          .ok (.changed d'))) := by
  constructor
  · intro d l last hfind hstate hl hlast hopen
    unfold changeDispenserStatus
    rw [hfind]
    dsimp only
    rw [if_neg (by decide), if_neg (by rw [hstate]; decide), if_neg (by decide)]
    rw [hl]
    dsimp only
    rw [hlast]
    dsimp only
    by_cases ht : t ≤ last.opened_at
    · rw [if_pos ht]
      exact ⟨iff_of_true rfl ht, fun hlt => absurd hlt (not_lt.mpr ht)⟩
    · rw [if_neg ht]
      exact ⟨iff_of_false (by simp) ht, fun _ => ⟨_, rfl⟩⟩
  · intro d l last c hfind hstate hl hlast hclosed
    unfold changeDispenserStatus
    rw [hfind]
    dsimp only
    rw [if_neg (by decide), if_neg (by rw [hstate]; decide), if_pos (by decide)]
    rw [hl]
    dsimp only
    rw [hlast]
    dsimp only
    rw [hclosed]
    dsimp only [jsDateOfOpt]
    by_cases ht : t ≤ c
    · rw [if_pos ht]
      exact ⟨iff_of_true rfl ht, fun hlt => absurd hlt (not_lt.mpr ht)⟩
    · rw [if_neg ht]
      exact ⟨iff_of_false (by simp) ht, fun _ => ⟨_, rfl⟩⟩

/-- Witness for C1 on concrete dispensers: closing at 500 ≤ 1000 fails and at
2000 succeeds; reopening at 2500 ≤ 3000 fails and at 3001 succeeds. -/
theorem changeStatus_invalid_date_order_iff_witness :
    (changeDispenserStatus 1 egOpen 0 DispenserState.CLOSE 500).2 =
      .error .invalidDateOrder ∧
    (∃ d', (changeDispenserStatus 1 egOpen 0 DispenserState.CLOSE 2000).2 =
      .ok (.changed d')) ∧
    (changeDispenserStatus 1 egClosed 0 DispenserState.OPEN 2500).2 =
      .error .invalidDateOrder ∧
    (∃ d', (changeDispenserStatus 1 egClosed 0 DispenserState.OPEN 3001).2 =
      .ok (.changed d')) := by
  refine ⟨?_, ?_, ?_, ?_⟩
  · exact ((changeStatus_invalid_date_order_iff 1 egOpen 0 500).1 ⟨0, 2, "open", 1000⟩
      [⟨1000, none, 2, none⟩] ⟨1000, none, 2, none⟩ (by decide) rfl (by decide) rfl
      rfl).1.mpr (by decide)
  · exact ((changeStatus_invalid_date_order_iff 1 egOpen 0 2000).1 ⟨0, 2, "open", 1000⟩
      [⟨1000, none, 2, none⟩] ⟨1000, none, 2, none⟩ (by decide) rfl (by decide) rfl
      rfl).2 (by decide)
  · exact ((changeStatus_invalid_date_order_iff 1 egClosed 0 2500).2 ⟨0, 2, "close", 3000⟩
      [⟨1000, some 3000, 2, some 4⟩] ⟨1000, some 3000, 2, some 4⟩ 3000 (by decide) rfl
      (by decide) rfl rfl).1.mpr (by decide)
  · exact ((changeStatus_invalid_date_order_iff 1 egClosed 0 3001).2 ⟨0, 2, "close", 3000⟩
      [⟨1000, some 3000, 2, some 4⟩] ⟨1000, some 3000, 2, some 4⟩ 3000 (by decide) rfl
      (by decide) rfl rfl).2 (by decide)

/-- C4: when `changeDispenserStatus` passes the lookup, state-validity and
same-state checks but the ledger step then fails with InvalidDateOrder, the
dispenser's state and updated_at have already been set to the requested
values and are not rolled back, while the usage-period map and the running
totals are untouched. -/
theorem changeStatus_no_rollback_on_date_error (price : ℚ) (s : DispenserManager)
    (id : Nat) (st : String) (t : ℤ) (d : Dispenser)
    (hfind : s.dispensers.find? (fun d' => d'.id == id) = some d)
    (herr : (changeDispenserStatus price s id st t).2 = .error .invalidDateOrder) :
    (changeDispenserStatus price s id st t).1.dispensers.find?
        (fun d' => d'.id == id) = some { d with state := st, updated_at := t } ∧
    (changeDispenserStatus price s id st t).1.statusChanges = s.statusChanges ∧
    (changeDispenserStatus price s id st t).1.totalSpentPerDispenser =
      s.totalSpentPerDispenser := by
  unfold changeDispenserStatus at herr ⊢
  rw [hfind] at herr ⊢
  dsimp only at herr ⊢
  by_cases hv : st ≠ DispenserState.OPEN ∧ st ≠ DispenserState.CLOSE
  · rw [if_pos hv] at herr
    exact absurd herr (by simp)
  rw [if_neg hv] at herr ⊢
  by_cases hsame : (d.state == st) = true
  · rw [if_pos hsame] at herr
    exact absurd herr (by simp)
  rw [if_neg hsame] at herr ⊢
  by_cases hop : (st == DispenserState.OPEN) = true
  · rw [if_pos hop] at herr ⊢
    cases hsc : mapGet? s.statusChanges id with
    | none =>
      rw [hsc] at herr
      exact absurd herr (by simp)
    | some l =>
      rw [hsc] at herr
      dsimp only at herr ⊢
      cases hlast : l.getLast? with
      | none =>
        rw [hlast] at herr
        exact absurd herr (by simp)
      | some last =>
        rw [hlast] at herr
        dsimp only at herr ⊢
        by_cases ht : t ≤ jsDateOfOpt last.closed_at
        · rw [if_pos ht]
          exact ⟨find?_setStateFirst st t hfind, rfl, rfl⟩
        · rw [if_neg ht] at herr
          exact absurd herr (by simp)
  · rw [if_neg hop] at herr ⊢
    cases hsc : mapGet? s.statusChanges id with
    | none =>
      rw [hsc] at herr
      exact absurd herr (by simp)
    | some l =>
      rw [hsc] at herr
      dsimp only at herr ⊢
      cases hlast : l.getLast? with
      | none =>
        rw [hlast] at herr
        exact absurd herr (by simp)
      | some last =>
        rw [hlast] at herr
        dsimp only at herr ⊢
        by_cases ht : t ≤ last.opened_at
        · rw [if_pos ht]
          exact ⟨find?_setStateFirst st t hfind, rfl, rfl⟩
        · rw [if_neg ht] at herr
          exact absurd herr (by simp)

/-- Witness for C4: the failed close at 500 left the dispenser flipped to
`close`/500 while ledger and totals are unchanged. -/
theorem changeStatus_no_rollback_on_date_error_witness :
    (changeDispenserStatus 1 egOpen 0 DispenserState.CLOSE 500).1.dispensers.find?
        (fun d' => d'.id == 0) = some ⟨0, 2, "close", 500⟩ ∧
    (changeDispenserStatus 1 egOpen 0 DispenserState.CLOSE 500).1.statusChanges =
      egOpen.statusChanges ∧
    (changeDispenserStatus 1 egOpen 0 DispenserState.CLOSE 500).1.totalSpentPerDispenser =
      egOpen.totalSpentPerDispenser :=
  changeStatus_no_rollback_on_date_error 1 egOpen 0 DispenserState.CLOSE 500
    ⟨0, 2, "open", 1000⟩ (by decide) (by decide)

/-- C3: in every reachable state, every usage period that has been closed
stores total_spent = elapsed seconds × flow_volume × price, rounded to two
decimal places with standard (half-up) rounding — the Spend Calculator's
value on the period's boundaries and flow snapshot. The calculator itself is
a pure function of its arguments, so computing the value has no effects. -/
theorem closed_period_total_spent (price : ℚ) (s : DispenserManager)
    (hs : Reachable price s) :
    ∀ e ∈ s.statusChanges, ∀ p ∈ e.2, ∀ c, p.closed_at = some c →
      p.total_spent =
        some (round2 (((c : ℚ) - ((p.opened_at : ℤ) : ℚ)) / 1000 *
          p.flow_volume * price)) := by
  intro e he p hp c hc
  exact closedSpentOK_reachable hs e he p hp c hc

/-- Witness for C3 on the trace create, open at 1000, close at 3000. -/
theorem closed_period_total_spent_witness :
    (⟨1000, some 3000, 2, some (calculateTotalSpent 1 1000 3000 2)⟩
        : StatusChange).total_spent =
      some (round2 ((((3000 : ℤ) : ℚ) - ((1000 : ℤ) : ℚ)) / 1000 * 2 * 1)) := by
  have hre : Reachable 1 (runTrace 1 initState
      [.create (.num 2) 0, .change 0 DispenserState.OPEN 1000,
       .change 0 DispenserState.CLOSE 3000]) := ⟨_, rfl⟩
  exact closed_period_total_spent 1 _ hre
    (0, [⟨1000, some 3000, 2, some (calculateTotalSpent 1 1000 3000 2)⟩])
    (by exact List.mem_singleton.mpr rfl)
    ⟨1000, some 3000, 2, some (calculateTotalSpent 1 1000 3000 2)⟩
    (List.mem_singleton.mpr rfl) 3000 rfl

/-- C9: `createDispenser` fails with InvalidFlowVolume exactly when the flow
argument is non-numeric or ≤ 0; for a positive numeric flow it returns a
dispenser with the fresh id (unique among stored dispensers in any reachable
state), state CLOSE, `updated_at` the creation time and the given flow, and
appends it to the store. -/
theorem createDispenser_spec (price : ℚ) (s : DispenserManager) (fv : FlowArg)
    (now : ℤ) (hs : Reachable price s) :
    ((createDispenser s fv now).2 = .error .invalidFlow ↔
      (fv = .nonNum ∨ ∃ q, fv = .num q ∧ q ≤ 0)) ∧
    (∀ q, fv = .num q → 0 < q →
      (createDispenser s fv now).2 =
        .ok { id := s.nextId, flow_volume := q, state := DispenserState.CLOSE,
              updated_at := now } ∧
      (∀ d ∈ s.dispensers, d.id ≠ s.nextId) ∧
      (createDispenser s fv now).1.dispensers =
        s.dispensers ++
          [{ id := s.nextId, flow_volume := q,
             state := DispenserState.CLOSE, updated_at := now }]) := by
  have huniq : ∀ d ∈ s.dispensers, d.id ≠ s.nextId := fun d hd =>
    Nat.ne_of_lt (idsLt_reachable hs d hd)
  constructor
  · cases fv with
    | nonNum => exact iff_of_true rfl (Or.inl rfl)
    | num q =>
      simp only [createDispenser]
      by_cases hq : q ≤ 0
      · rw [if_pos hq]
        exact iff_of_true rfl (Or.inr ⟨q, rfl, hq⟩)
      · rw [if_neg hq]
        refine iff_of_false (by simp) ?_
        rintro (h | ⟨q', hq', hle⟩)
        · exact FlowArg.noConfusion h
        · cases hq'
          exact hq hle
  · rintro q rfl hq
    simp only [createDispenser]
    rw [if_neg (not_le.mpr hq)]
    exact ⟨rfl, huniq, rfl⟩

/-- Witness for C9: creating with flow 2 at the empty store, and the
rejections of 0 and of a non-numeric argument. -/
theorem createDispenser_spec_witness :
    (createDispenser initState (.num 2) 5).2 =
      .ok { id := 0, flow_volume := 2, state := DispenserState.CLOSE,
            updated_at := 5 } ∧
    (createDispenser initState (.num 0) 5).2 = .error .invalidFlow ∧
    (createDispenser initState .nonNum 5).2 = .error .invalidFlow := by
  refine ⟨?_, ?_, ?_⟩
  · exact ((createDispenser_spec 1 initState (.num 2) 5 ⟨[], rfl⟩).2 2 rfl
      (by norm_num)).1
  · exact (createDispenser_spec 1 initState (.num 0) 5 ⟨[], rfl⟩).1.mpr
      (Or.inr ⟨0, rfl, le_refl 0⟩)
  · exact (createDispenser_spec 1 initState .nonNum 5 ⟨[], rfl⟩).1.mpr (Or.inl rfl)

/-- C7: starting from any store in which the fresh id is unused, create a
dispenser with positive flow, open it at T0 and close it at T1 > T0 (both
succeed); `getSpending` then returns exactly one usage period with
opened_at = T0, closed_at = T1 and total_spent equal to the Spend
Calculator's direct computation on (T0, T1, flow). -/
theorem open_close_round_trip (price : ℚ) (s : DispenserManager) (fv : ℚ)
    (now T0 T1 now' : ℤ)
    (hfv : 0 < fv)
    (hfresh : s.dispensers.find? (fun d' => d'.id == s.nextId) = none)
    (hsc : mapGet? s.statusChanges s.nextId = none)
    (hts : mapGet? s.totalSpentPerDispenser s.nextId = none)
    (hT : T0 < T1) :
    (changeDispenserStatus price (createDispenser s (.num fv) now).1 s.nextId
        DispenserState.OPEN T0).2 =
      .ok (.changed ⟨s.nextId, fv, DispenserState.OPEN, T0⟩) ∧
    (changeDispenserStatus price
        (changeDispenserStatus price (createDispenser s (.num fv) now).1 s.nextId
          DispenserState.OPEN T0).1 s.nextId DispenserState.CLOSE T1).2 =
      .ok (.changed ⟨s.nextId, fv, DispenserState.CLOSE, T1⟩) ∧
    (getSpending price
        (changeDispenserStatus price
          (changeDispenserStatus price (createDispenser s (.num fv) now).1 s.nextId
            DispenserState.OPEN T0).1 s.nextId DispenserState.CLOSE T1).1
        s.nextId now').2 =
      .ok { amount := (0 + calculateTotalSpent price T0 T1 fv),
            usages := [⟨T0, some T1, fv, some (calculateTotalSpent price T0 T1 fv)⟩] } := by
  have hcreate : (createDispenser s (.num fv) now).1 =
      { s with
          nextId := s.nextId + 1,
          dispensers := s.dispensers ++ [⟨s.nextId, fv, DispenserState.CLOSE, now⟩] } := by
    simp only [createDispenser]
    rw [if_neg (not_le.mpr hfv)]
  have hfind1 : (s.dispensers ++ [(⟨s.nextId, fv, DispenserState.CLOSE, now⟩ : Dispenser)]).find?
      (fun d' => d'.id == s.nextId) = some ⟨s.nextId, fv, DispenserState.CLOSE, now⟩ := by
    rw [find?_append_of_none hfresh, find?_id_cons]
    exact if_pos (by simp)
  have hset1 : setStateFirst (s.dispensers ++ [⟨s.nextId, fv, DispenserState.CLOSE, now⟩])
      s.nextId DispenserState.OPEN T0 =
      s.dispensers ++ [⟨s.nextId, fv, DispenserState.OPEN, T0⟩] := by
    rw [setStateFirst_append_of_none DispenserState.OPEN T0 hfresh]
    simp [setStateFirst]
  have hopen : changeDispenserStatus price (createDispenser s (.num fv) now).1 s.nextId
      DispenserState.OPEN T0 =
      ({ s with
           nextId := s.nextId + 1,
           dispensers := s.dispensers ++ [⟨s.nextId, fv, DispenserState.OPEN, T0⟩],
           statusChanges := mapSet s.statusChanges s.nextId [⟨T0, none, fv, none⟩] },
       .ok (.changed ⟨s.nextId, fv, DispenserState.OPEN, T0⟩)) := by
    rw [hcreate]
    unfold changeDispenserStatus
    rw [hfind1]
    dsimp only
    rw [if_neg (by decide), if_neg (by decide), if_pos (by decide)]
    rw [hsc]
    dsimp only
    rw [hset1]
  have hfind2 : (s.dispensers ++ [(⟨s.nextId, fv, DispenserState.OPEN, T0⟩ : Dispenser)]).find?
      (fun d' => d'.id == s.nextId) = some ⟨s.nextId, fv, DispenserState.OPEN, T0⟩ := by
    rw [find?_append_of_none hfresh, find?_id_cons]
    exact if_pos (by simp)
  have hset2 : setStateFirst (s.dispensers ++ [⟨s.nextId, fv, DispenserState.OPEN, T0⟩])
      s.nextId DispenserState.CLOSE T1 =
      s.dispensers ++ [⟨s.nextId, fv, DispenserState.CLOSE, T1⟩] := by
    rw [setStateFirst_append_of_none DispenserState.CLOSE T1 hfresh]
    simp [setStateFirst]
  have hclose : changeDispenserStatus price
      (changeDispenserStatus price (createDispenser s (.num fv) now).1 s.nextId
        DispenserState.OPEN T0).1 s.nextId DispenserState.CLOSE T1 =
      ({ s with
           nextId := s.nextId + 1,
           dispensers := s.dispensers ++ [⟨s.nextId, fv, DispenserState.CLOSE, T1⟩],
           statusChanges :=
             (mapSet (mapSet s.statusChanges s.nextId [⟨T0, none, fv, none⟩]) s.nextId
               [⟨T0, some T1, fv, some (calculateTotalSpent price T0 T1 fv)⟩]),
           totalSpentPerDispenser :=
             (mapSet s.totalSpentPerDispenser s.nextId
               (0 + calculateTotalSpent price T0 T1 fv)) },
       .ok (.changed ⟨s.nextId, fv, DispenserState.CLOSE, T1⟩)) := by
    rw [hopen]
    unfold changeDispenserStatus
    rw [hfind2]
    dsimp only
    rw [if_neg (by decide), if_neg (by decide), if_neg (by decide)]
    rw [mapGet?_mapSet_self]
    dsimp only
    rw [show ([(⟨T0, none, fv, none⟩ : StatusChange)]).getLast? =
      some ⟨T0, none, fv, none⟩ from rfl]
    dsimp only
    rw [if_neg (not_le.mpr hT)]
    rw [hset2, hts]
    rfl
  rw [hclose, hopen]
  refine ⟨rfl, rfl, ?_⟩
  unfold getSpending
  rw [show (s.dispensers ++ [(⟨s.nextId, fv, DispenserState.CLOSE, T1⟩ : Dispenser)]).find?
      (fun d' => d'.id == s.nextId) = some ⟨s.nextId, fv, DispenserState.CLOSE, T1⟩ by
    rw [find?_append_of_none hfresh, find?_id_cons]
    exact if_pos (by simp)]
  dsimp only
  rw [mapGet?_mapSet_self]
  dsimp only
  rw [show ([(⟨T0, some T1, fv, some (calculateTotalSpent price T0 T1 fv)⟩
      : StatusChange)]).getLast? =
    some ⟨T0, some T1, fv, some (calculateTotalSpent price T0 T1 fv)⟩ from rfl]
  dsimp only
  rw [if_neg (by simp)]
  rw [mapGet?_mapSet_self]
  rfl

/-- Witness for C7 from the empty store with flow 2, T0 = 1000, T1 = 3000. -/
theorem open_close_round_trip_witness :
    (getSpending 1
        (changeDispenserStatus 1
          (changeDispenserStatus 1 (createDispenser initState (.num 2) 0).1
            initState.nextId DispenserState.OPEN 1000).1
          initState.nextId DispenserState.CLOSE 3000).1
        initState.nextId 9999).2 =
      .ok { amount := (0 + calculateTotalSpent 1 1000 3000 2),
            usages := [⟨1000, some 3000, 2, some (calculateTotalSpent 1 1000 3000 2)⟩] } :=
  (open_close_round_trip 1 initState 2 0 1000 3000 9999 (by norm_num) (by decide)
    (by decide) (by decide) (by decide)).2.2

theorem ledgerExtends_refl (l : List StatusChange) : LedgerExtends l l := by
  refine ⟨le_refl _, fun i _ => rfl, fun i p q hp hq => ?_⟩
  rw [hp] at hq
  cases hq
  exact ⟨rfl, rfl⟩

theorem ledgerExtends_append_one (l : List StatusChange) (x : StatusChange) :
    LedgerExtends l (l ++ [x]) := by
  refine ⟨by simp, fun i hi => ?_, fun i p q hp hq => ?_⟩
  · rw [List.getElem?_append, if_pos (by omega)]
  · have hi : i < l.length := (List.getElem?_eq_some.mp hp).1
    rw [List.getElem?_append, if_pos hi, hp] at hq
    cases hq
    exact ⟨rfl, rfl⟩

theorem ledgerExtends_set_last (l : List StatusChange) (last last' : StatusChange)
    (hlast : l.getLast? = some last)
    (ho : last'.opened_at = last.opened_at)
    (hf' : last'.flow_volume = last.flow_volume) :
    LedgerExtends l (l.dropLast ++ [last']) := by
  have hne : l ≠ [] := by
    intro h
    rw [h] at hlast
    exact Option.noConfusion hlast
  have hpos : 0 < l.length := List.length_pos.mpr hne
  have hdl : l.dropLast.length = l.length - 1 := List.length_dropLast l
  refine ⟨?_, fun i hi => ?_, fun i p q hp hq => ?_⟩
  · simp only [List.length_append, hdl, List.length_singleton]
    omega
  · rw [List.getElem?_append, if_pos (by omega)]
    rw [List.dropLast_eq_take, List.getElem?_take_of_lt (by omega)]
  · have hilt : i < l.length := (List.getElem?_eq_some.mp hp).1
    by_cases hc : i + 1 < l.length
    · rw [List.getElem?_append, if_pos (by omega),
        List.dropLast_eq_take, List.getElem?_take_of_lt (by omega), hp] at hq
      cases hq
      exact ⟨rfl, rfl⟩
    · have hieq : i = l.length - 1 := by omega
      have hp' : p = last := by
        rw [List.getLast?_eq_getElem?] at hlast
        rw [hieq] at hp
        rw [hp] at hlast
        exact Option.some.inj hlast
      have hq' : q = last' := by
        rw [List.getElem?_append, if_neg (by omega)] at hq
        have hz : i - l.dropLast.length = 0 := by omega
        rw [hz] at hq
        simp only [List.getElem?_cons_zero] at hq
        exact (Option.some.inj hq).symm
      rw [hp', hq']
      exact ⟨ho, hf'⟩

/-- C10: every call is append-only and last-entry-local: the stored dispenser
ids only grow at the end (no dispenser is removed or reordered), and for
every dispenser id that already has usage periods the new period list extends
the old one — every interior period is untouched, and even the last one keeps
its `opened_at` and `flow_volume` forever. -/
theorem step_append_only (price : ℚ) (s : DispenserManager) (op : Op) :
    (∃ tail, (runOp price s op).dispensers.map Dispenser.id =
      s.dispensers.map Dispenser.id ++ tail) ∧
    (∀ k l, mapGet? s.statusChanges k = some l →
      ∃ l', mapGet? (runOp price s op).statusChanges k = some l' ∧
        LedgerExtends l l') := by
  cases op with
  | create fv now =>
    simp only [runOp]
    constructor
    · cases fv with
      | nonNum => exact ⟨[], by simp [createDispenser]⟩
      | num q =>
        simp only [createDispenser]
        by_cases hq : q ≤ 0
        · rw [if_pos hq]
          exact ⟨[], by simp⟩
        · rw [if_neg hq]
          exact ⟨[s.nextId], by simp⟩
    · intro k l hl
      refine ⟨l, ?_, ledgerExtends_refl l⟩
      rw [(createDispenser_proj s fv now).1]
      exact hl
  | change id st t =>
    simp only [runOp]
    unfold changeDispenserStatus
    split
    · exact ⟨⟨[], by simp⟩, fun k l hl => ⟨l, hl, ledgerExtends_refl l⟩⟩
    next dispenser hfind =>
      split
      · exact ⟨⟨[], by simp⟩, fun k l hl => ⟨l, hl, ledgerExtends_refl l⟩⟩
      split
      · exact ⟨⟨[], by simp⟩, fun k l hl => ⟨l, hl, ledgerExtends_refl l⟩⟩
      dsimp only
      split
      · -- open branch
        split
        next l0 hl0 =>
          split
          next last hlast =>
            split
            · exact ⟨⟨[], by simp [map_id_setStateFirst]⟩,
                fun k l hl => ⟨l, hl, ledgerExtends_refl l⟩⟩
            · refine ⟨⟨[], by simp [map_id_setStateFirst]⟩, fun k l hl => ?_⟩
              by_cases hk : k = id
              · subst hk
                rw [hl] at hl0
                cases hl0
                exact ⟨_, mapGet?_mapSet_self _ _ _, ledgerExtends_append_one _ _⟩
              · exact ⟨l, by rw [mapGet?_mapSet_ne _ _ _ _ hk]; exact hl,
                  ledgerExtends_refl l⟩
          next hlast =>
            refine ⟨⟨[], by simp [map_id_setStateFirst]⟩, fun k l hl => ?_⟩
            by_cases hk : k = id
            · subst hk
              rw [hl] at hl0
              cases hl0
              exact ⟨_, mapGet?_mapSet_self _ _ _, ledgerExtends_append_one _ _⟩
            · exact ⟨l, by rw [mapGet?_mapSet_ne _ _ _ _ hk]; exact hl,
                ledgerExtends_refl l⟩
        next hl0 =>
          refine ⟨⟨[], by simp [map_id_setStateFirst]⟩, fun k l hl => ?_⟩
          by_cases hk : k = id
          · subst hk
            rw [hl] at hl0
            exact Option.noConfusion hl0
          · exact ⟨l, by rw [mapGet?_mapSet_ne _ _ _ _ hk]; exact hl,
              ledgerExtends_refl l⟩
      · -- close branch
        split
        next l0 hl0 =>
          split
          next last hlast =>
            split
            · exact ⟨⟨[], by simp [map_id_setStateFirst]⟩,
                fun k l hl => ⟨l, hl, ledgerExtends_refl l⟩⟩
            · refine ⟨⟨[], by simp [map_id_setStateFirst]⟩, fun k l hl => ?_⟩
              by_cases hk : k = id
              · subst hk
                rw [hl] at hl0
                cases hl0
                exact ⟨_, mapGet?_mapSet_self _ _ _,
                  ledgerExtends_set_last _ last _ hlast rfl rfl⟩
              · exact ⟨l, by rw [mapGet?_mapSet_ne _ _ _ _ hk]; exact hl,
                  ledgerExtends_refl l⟩
          next hlast =>
            exact ⟨⟨[], by simp [map_id_setStateFirst]⟩,
              fun k l hl => ⟨l, hl, ledgerExtends_refl l⟩⟩
        next hl0 =>
          exact ⟨⟨[], by simp [map_id_setStateFirst]⟩,
            fun k l hl => ⟨l, hl, ledgerExtends_refl l⟩⟩
  | spend id now =>
    simp only [runOp]
    unfold getSpending
    split
    · exact ⟨⟨[], by simp⟩, fun k l hl => ⟨l, hl, ledgerExtends_refl l⟩⟩
    split
    · exact ⟨⟨[], by simp⟩, fun k l hl => ⟨l, hl, ledgerExtends_refl l⟩⟩
    next spending hsc =>
      split
      · exact ⟨⟨[], by simp⟩, fun k l hl => ⟨l, hl, ledgerExtends_refl l⟩⟩
      next last hlast =>
        split
        next hopen =>
          dsimp only [updateTotalSpentPerDispenser]
          refine ⟨⟨[], by simp⟩, fun k l hl => ?_⟩
          by_cases hk : k = id
          · subst hk
            rw [hl] at hsc
            cases hsc
            exact ⟨_, mapGet?_mapSet_self _ _ _,
              ledgerExtends_set_last _ last _ hlast rfl rfl⟩
          · exact ⟨l, by rw [mapGet?_mapSet_ne _ _ _ _ hk]; exact hl,
              ledgerExtends_refl l⟩
        · exact ⟨⟨[], by simp⟩, fun k l hl => ⟨l, hl, ledgerExtends_refl l⟩⟩

/-- Witness for C10: the failed close on the open dispenser leaves its single
usage period extended trivially (unchanged), and the successful close
extends it last-entry-locally. -/
theorem step_append_only_witness :
    ∃ l', mapGet? (runOp 1 egOpen (.change 0 DispenserState.CLOSE 2000)).statusChanges 0 =
      some l' ∧ LedgerExtends [⟨1000, none, 2, none⟩] l' :=
  (step_append_only 1 egOpen (.change 0 DispenserState.CLOSE 2000)).2 0
    [⟨1000, none, 2, none⟩] (by decide)

end BeerTap
